import Mathlib

/-!
Verification of the `roll-up` project scaffolder (`src/bin/roll-up.js`).

The script is sequential file I/O: it parses command-line flags, merges
default fields into `package.json` (after writing a timestamped backup),
writes a fixed set of template files guarded by existence checks, writes a
LICENSE with a resolved author name, and optionally shells out to a package
manager.  We embed the JSON data model, the merge, the argument parser and
the whole run (as a function from an abstract world — initial file system,
clock, git-query result, installer exit code, per-path write success — to a
final file system, an ordered event trace and an outcome).
-/

namespace RollUp

/-- JSON values as produced by `JSON.parse` (numbers restricted to the
integers that appear in manifests; floats are irrelevant to every property
proved below). -/
inductive JVal where
  | str (s : String)
  | num (n : Int)
  | bool (b : Bool)
  | null
  | arr (xs : List JVal)
  | obj (fields : List (String × JVal))
deriving Repr

/-- A JSON object body: an ordered association list, as JavaScript objects
preserve insertion order. -/
abbrev JObj := List (String × JVal)

mutual
def JVal.beq : JVal → JVal → Bool
  | .str a, .str b => a == b
  | .num a, .num b => a == b
  | .bool a, .bool b => a == b
  | .null, .null => true
  | .arr a, .arr b => JVal.beqList a b
  | .obj a, .obj b => JVal.beqFields a b
  | _, _ => false
def JVal.beqList : List JVal → List JVal → Bool
  | [], [] => true
  | a :: as, b :: bs => JVal.beq a b && JVal.beqList as bs
  | _, _ => false
def JVal.beqFields : List (String × JVal) → List (String × JVal) → Bool
  | [], [] => true
  | (ka, va) :: as, (kb, vb) :: bs => ka == kb && JVal.beq va vb && JVal.beqFields as bs
  | _, _ => false
end

mutual
theorem JVal.beq_iff : ∀ a b : JVal, JVal.beq a b = true ↔ a = b
  | .str a, .str b => by simp [JVal.beq]
  | .str _, .num _ => by simp [JVal.beq]
  | .str _, .bool _ => by simp [JVal.beq]
  | .str _, .null => by simp [JVal.beq]
  | .str _, .arr _ => by simp [JVal.beq]
  | .str _, .obj _ => by simp [JVal.beq]
  | .num _, .str _ => by simp [JVal.beq]
  | .num a, .num b => by simp [JVal.beq]
  | .num _, .bool _ => by simp [JVal.beq]
  | .num _, .null => by simp [JVal.beq]
  | .num _, .arr _ => by simp [JVal.beq]
  | .num _, .obj _ => by simp [JVal.beq]
  | .bool _, .str _ => by simp [JVal.beq]
  | .bool _, .num _ => by simp [JVal.beq]
  | .bool a, .bool b => by simp [JVal.beq]
  | .bool _, .null => by simp [JVal.beq]
  | .bool _, .arr _ => by simp [JVal.beq]
  | .bool _, .obj _ => by simp [JVal.beq]
  | .null, .str _ => by simp [JVal.beq]
  | .null, .num _ => by simp [JVal.beq]
  | .null, .bool _ => by simp [JVal.beq]
  | .null, .null => by simp [JVal.beq]
  | .null, .arr _ => by simp [JVal.beq]
  | .null, .obj _ => by simp [JVal.beq]
  | .arr _, .str _ => by simp [JVal.beq]
  | .arr _, .num _ => by simp [JVal.beq]
  | .arr _, .bool _ => by simp [JVal.beq]
  | .arr _, .null => by simp [JVal.beq]
  | .arr a, .arr b => by simp [JVal.beq, JVal.beqList_iff a b]
  | .arr _, .obj _ => by simp [JVal.beq]
  | .obj _, .str _ => by simp [JVal.beq]
  | .obj _, .num _ => by simp [JVal.beq]
  | .obj _, .bool _ => by simp [JVal.beq]
  | .obj _, .null => by simp [JVal.beq]
  | .obj _, .arr _ => by simp [JVal.beq]
  | .obj a, .obj b => by simp [JVal.beq, JVal.beqFields_iff a b]
theorem JVal.beqList_iff : ∀ a b : List JVal, JVal.beqList a b = true ↔ a = b
  | [], [] => by simp [JVal.beqList]
  | [], _ :: _ => by simp [JVal.beqList]
  | _ :: _, [] => by simp [JVal.beqList]
  | a :: as, b :: bs => by
      simp [JVal.beqList, JVal.beq_iff a b, JVal.beqList_iff as bs]
theorem JVal.beqFields_iff : ∀ a b : List (String × JVal), JVal.beqFields a b = true ↔ a = b
  | [], [] => by simp [JVal.beqFields]
  | [], _ :: _ => by simp [JVal.beqFields]
  | _ :: _, [] => by simp [JVal.beqFields]
  | (ka, va) :: as, (kb, vb) :: bs => by
      simp [JVal.beqFields, JVal.beq_iff va vb, JVal.beqFields_iff as bs, and_assoc]
end

instance : DecidableEq JVal := fun a b =>
  decidable_of_iff (JVal.beq a b = true) (JVal.beq_iff a b)

/-- JavaScript truthiness of a JSON value (`!v` is true exactly when this is
`false`): empty strings, `0`, `false` and `null` are falsy; every object and
array (even empty) is truthy. -/
def JVal.truthy : JVal → Bool
  | .str s => s ≠ ""
  | .num n => n ≠ 0
  | .bool b => b
  | .null => false
  | .arr _ => true
  | .obj _ => true

/-- First binding of key `k` in an object body (`o[k]`); `none` when the
property is absent (`undefined`). -/
def getKey : JObj → String → Option JVal
  | [], _ => none
  | (k', v') :: rest, k => if k' = k then some v' else getKey rest k

/-- Property assignment `o[k] = v`: replaces the value in place when the key
exists (JavaScript keeps the original insertion position), appends the new
binding at the end otherwise. -/
def setKey : JObj → String → JVal → JObj
  | [], k, v => [(k, v)]
  | (k', v') :: rest, k, v =>
      if k' = k then (k', v) :: rest else (k', v') :: setKey rest k v

/-- Truthiness of an optional property: `undefined` is falsy. -/
def truthyOpt : Option JVal → Bool
  | some v => v.truthy
  | none => false

/-- One guarded default: `if (!o[k]) o[k] = v`. -/
def fillStep (o : JObj) (k : String) (v : JVal) : JObj :=
  if truthyOpt (getKey o k) then o else setKey o k v

/-- Guarded defaults applied in sequence, in list order. -/
def fillAll (o : JObj) (kvs : List (String × JVal)) : JObj :=
  kvs.foldl (fun acc kv => fillStep acc kv.1 kv.2) o

/-- The five top-level default fields of `defaults`, in the order the merge
loop `for (const key of ['type','main','module','types','files'])` visits
them. -/
def defaultsSimple : List (String × JVal) :=
  [("type", .str "module"),
   ("main", .str "dist/cjs/index.cjs"),
   ("module", .str "dist/esm/index.js"),
   ("types", .str "dist/types/index.d.ts"),
   ("files", .arr [.str "dist/"])]

/-- `defaults.exports`. -/
def defaultsExports : JVal :=
  .obj [(".", .obj
    [("import", .str "./dist/esm/index.js"),
     ("require", .str "./dist/cjs/index.cjs"),
     ("types", .str "./dist/types/index.d.ts")])]

/-- `defaults.scripts`, in `Object.entries` order. -/
def defaultsScripts : List (String × JVal) :=
  [("build:js", .str "rollup -c"),
   ("build:types", .str "tsc -p tsconfig.types.json"),
   ("build", .str "npm run build:js && npm run build:types"),
   ("prepublishOnly", .str "npm run build")]

/-- `// merge top-level simple keys` loop. -/
def mergeSimple (o : JObj) : JObj := fillAll o defaultsSimple

/-- The `pkg.scripts = pkg.scripts || \x7b\x7d` normalisation followed by the
per-script guarded defaults.  When the pre-existing `scripts` value is a
truthy non-object, the property assignments are silent no-ops (sloppy-mode
writes to a primitive, and `JSON.stringify` drops string-keyed properties of
an array), so the serialised value is unchanged. -/
def mergeScripts (v : JVal) : JVal :=
  match (if v.truthy then v else .obj []) with
  | .obj sf => .obj (fillAll sf defaultsScripts)
  | other => other

/-- The whole in-memory merge performed on the parsed manifest (lines
197–230 of `src/bin/roll-up.js`): simple keys, then `exports`, then
`scripts`. -/
def mergeManifest (pkg : JObj) : JObj :=
  let p1 := mergeSimple pkg
  let p2 := fillStep p1 "exports" defaultsExports
  setKey p2 "scripts" (mergeScripts ((getKey p2 "scripts").getD .null))

/-- `String.prototype.toLowerCase()`, modelled as per-character lowering.
Every value the parser compares the lowered string against (`npm`, `pnpm`,
`yarn`) is ASCII, and on ASCII input JavaScript toLowerCase is exactly
per-character ASCII lowering. -/
def jsToLower (s : String) : String := String.mk (s.data.map Char.toLower)

/-- The configuration record built by `parseArgs`. -/
structure Opts where
  noInstall : Bool
  force : Bool
  name : Option String
  pkg : String
deriving DecidableEq, Repr

/-- The flag loop of `parseArgs`, one source token at a time.  `.error c`
models `process.exit(c)` (usage/invalid-value paths), `.ok` the returned
record.  `--name`/`--pkg` consume the following token only when it is truthy
(a missing or empty next token is falsy in `if (raw[i+1])`).  An empty
`--name` value is left in place by the source loop and then ignored on the
next iteration as an unknown token (it matches no flag), which is the
`parseLoop rest' out` call here; `--name` as the very last token leaves the
loop to end, returning `out`. -/
def parseLoop : List String → Opts → Except Nat Opts
  | [], out => .ok out
  | a :: rest, out =>
    if a = "-h" ∨ a = "--help" then .error 0
    else if a = "--no-install" then parseLoop rest { out with noInstall := true }
    else if a = "--force" then parseLoop rest { out with force := true }
    else if a = "--name" then
      match rest with
      | v :: rest' =>
          if v ≠ "" then parseLoop rest' { out with name := some v }
          else parseLoop rest' out
      | [] => .ok out
    else if a = "--pkg" ∨ a = "-p" then
      match rest with
      | v :: rest' =>
          if v ≠ "" then
            let val := jsToLower v
            if val = "npm" ∨ val = "pnpm" ∨ val = "yarn" then
              parseLoop rest' { out with pkg := val }
            else .error 1
          else .error 1
      | [] => .error 1
    else parseLoop rest out

/-- `parseArgs()`: empty argument list prints usage and exits 0; otherwise
the loop runs over the record initialised with `pkg: 'npm'`. -/
def parseArgs (raw : List String) : Except Nat Opts :=
  if raw = [] then .error 0
  else parseLoop raw { noInstall := false, force := false, name := none, pkg := "npm" }

mutual
/-- Coercion of a JSON value to a string, as JavaScript template
interpolation performs it (arrays join with commas, `null` elements of an
array join as the empty string, plain objects print `[object Object]`). -/
def jsToString : JVal → String
  | .str s => s
  | .num n => toString n
  | .bool b => if b then "true" else "false"
  | .null => "null"
  | .arr xs => String.intercalate "," (jsToStringElems xs)
  | .obj _ => "[object Object]"
def jsToStringElems : List JVal → List String
  | [] => []
  | .null :: xs => "" :: jsToStringElems xs
  | x :: xs => jsToString x :: jsToStringElems xs
end

/-- The fixed devDependency list, in source order. -/
def devDeps : List String :=
  ["@rollup/plugin-commonjs@^29.0.0",
   "@rollup/plugin-node-resolve@^16.0.3",
   "rollup@^2.79.2",
   "rollup-plugin-terser@^7.0.2",
   "typescript@^5.9.3",
   "@types/node@^24.10.1"]

/-- `devDeps.join(' ')`. -/
def depsJoined : String := String.intercalate " " devDeps

/-- Content of the generated `rollup.config.js`. -/
def rollupContent : String :=
  "import resolve from \x27@rollup/plugin-node-resolve\x27;\nimport commonjs from \x27@rollup/plugin-commonjs\x27;\nimport \x7b terser \x7d from \x27rollup-plugin-terser\x27;\n\nexport default \x7b\n  input: \x27src/index.js\x27,\n  plugins: [ resolve(), commonjs(), terser() ],\n  external: [], // list external packages here (keep peer deps external)\n  output: [\n    \x7b\n      file: \x27dist/esm/index.js\x27,\n      format: \x27esm\x27,\n      sourcemap: true\n    \x7d,\n    \x7b\n      file: \x27dist/cjs/index.cjs\x27,\n      format: \x27cjs\x27,\n      sourcemap: true\n    \x7d\n  ]\n\x7d;\n"

/-- Content of the generated `tsconfig.types.json`. -/
def tsconfigContent : String :=
  "\x7b\n  \"compilerOptions\": \x7b\n    \"declaration\": true,\n    \"emitDeclarationOnly\": true,\n    \"allowJs\": true,\n    \"outDir\": \"dist/types\",\n    \"rootDir\": \"src\",\n    \"declarationMap\": false,\n    \"moduleResolution\": \"node\",\n    \"target\": \"ES2019\",\n    \"module\": \"ESNext\",\n    \"strict\": false,\n    \"esModuleInterop\": true,\n    \"skipLibCheck\": true\n  \x7d,\n  \"include\": [\"src/**/*.js\"]\n\x7d\n"

/-- Content of the generated `.gitignore`. -/
def gitignoreContent : String :=
  "# ignore everything by default\n*\n\n# allow package metadata files\n!package.json\n!package-lock.json\n!README.md\n!LICENSE\n!CHANGELOG.md\n\n"

/-- Content of the generated `.npmignore`. -/
def npmignoreContent : String :=
  "# the same as .gitignore for this setup:\n*\n!dist/\n!dist/**\n!package.json\n!README.md\n!LICENSE\n!CHANGELOG.md\n!dist/**/*.d.ts\n"

/-- Content of the generated `README.md`. -/
def readmeContent : String :=
  "# Project\n\nThis repository was prepared by the \x60roll-up package\x60 script. Edit this README to explain your project.\n"

/-- `DEFAULT_FILES`, in `Object.entries` order. -/
def DEFAULT_FILES : List (String × String) :=
  [("rollup.config.js", rollupContent),
   ("tsconfig.types.json", tsconfigContent),
   (".gitignore", gitignoreContent),
   (".npmignore", npmignoreContent),
   ("README.md", readmeContent)]

/-- Content of the stub `src/index.js`. -/
def stubContent : String :=
  "// src/index.js\n/**\n * @returns \x7bstring\x7d\n */\nexport function hello() \x7b\n  return \x27hello\x27;\n\x7d\n\n"

/-- The generated LICENSE text with the year and resolved author name
interpolated. -/
def licenseText (year : Nat) (name : String) : String :=
  "MIT License\n\nCopyright (c) " ++ toString year ++ " " ++ name ++
  "\n\nPermission is hereby granted, free of charge, to any person obtaining a copy\nof this software and associated documentation files (the \"Software\"), to deal\nin the Software without restriction, including without limitation the rights\nto use, copy, modify, merge, publish, distribute, sublicense, and/or sell\ncopies of the Software, and to permit persons to whom the Software is\nfurnished to do so, subject to the following conditions:\n\nThe above copyright notice and this permission notice shall be included in all\ncopies or substantial portions of the Software.\n\nTHE SOFTWARE IS PROVIDED \"AS IS\", WITHOUT WARRANTY OF ANY KIND, EXPRESS OR\nIMPLIED, INCLUDING BUT NOT LIMITED TO THE WARRANTIES OF MERCHANTABILITY,\nFITNESS FOR A PARTICULAR PURPOSE AND NONINFRINGEMENT. IN NO EVENT SHALL THE\nAUTHORS OR COPYRIGHT HOLDERS BE LIABLE FOR ANY CLAIM, DAMAGES OR OTHER\nLIABILITY, WHETHER IN AN ACTION OF CONTRACT, TORT OR OTHERWISE, ARISING FROM,\nOUT OF OR IN CONNECTION WITH THE SOFTWARE OR THE USE OR OTHER DEALINGS IN THE\nSOFTWARE.\n"

/-- Truthiness of `opts.name` (`null` or a string). -/
def flagTruthy : Option String → Bool
  | some s => s ≠ ""
  | none => false

/-- The git branch of the author fallback: the trimmed `git config --get
user.name` output when the subprocess succeeds (`n || 'Your Name'` maps an
all-whitespace output to the placeholder), and the placeholder when
`execSync` throws for any reason. -/
def gitFallback : Option String → String
  | some out => let n := out.trim; if n = "" then "Your Name" else n
  | none => "Your Name"

/-- `pkg.author || (git fallback)`: the author field is used only when
truthy, coerced to a string by template interpolation. -/
def authorOr (author : Option JVal) (git : Option String) : String :=
  match author with
  | some a => if a.truthy then jsToString a else gitFallback git
  | none => gitFallback git

/-- `opts.name || pkg.author || (git fallback)`. -/
def resolveAuthor (flagName : Option String) (author : Option JVal) (git : Option String) : String :=
  match flagName with
  | some s => if s = "" then authorOr author git else s
  | none => authorOr author git

/-- Observable events of a run, in order: console lines, subprocess
spawns (both `spawn` in `runCmd` and `execSync` for the git query), and
file writes with their content. -/
inductive Ev where
  | log (s : String)
  | logErr (s : String)
  | spawn (cmd : String) (args : List String)
  | fswrite (p : String) (c : String)
deriving DecidableEq, Repr

/-- The file system visible to the tool: paths (relative to the working
directory) mapped to file contents; reads see the most recent write. -/
abbrev FS := List (String × String)

def fsRead : FS → String → Option String
  | [], _ => none
  | (q, c) :: rest, p => if q = p then some c else fsRead rest p

def fsWrite (fs : FS) (p c : String) : FS := (p, c) :: fs

def fsExists (fs : FS) (p : String) : Bool := (fsRead fs p).isSome

/-- The environment a run interacts with.  `parse` abstracts `JSON.parse`
on the manifest (`none` models a parse exception; a manifest is a JSON
object); `stringify` abstracts `JSON.stringify(·, null, 2)`; `writeOk p`
says whether `fs.writeFile` to `p` succeeds; `git` is the stdout of the
`git config --get user.name` query or `none` when `execSync` throws;
`installExit` is the exit code of the package-manager subprocess. -/
structure World where
  fs : FS
  now : Nat
  year : Nat
  git : Option String
  installExit : Nat
  writeOk : String → Bool
  parse : String → Option JObj
  stringify : JVal → String

/-- Result of one sequential step: file system after it, the events it
emitted, and whether an awaited operation rejected (which aborts the
async IIFE before any later step). -/
structure StepOut where
  fs : FS
  evs : List Ev
  crashed : Bool
deriving Repr

/-- Sequential composition: a step after a crash never runs. -/
def seqStep (a : StepOut) (f : FS → StepOut) : StepOut :=
  if a.crashed then a
  else
    let b := f a.fs
    ⟨b.fs, a.evs ++ b.evs, b.crashed⟩

/-- One `await fs.writeFile(p, c, 'utf8')` followed (on success) by the
given console events. -/
def writeStep (w : World) (p c : String) (after : List Ev) (fs : FS) : StepOut :=
  if w.writeOk p then ⟨fsWrite fs p c, Ev.fswrite p c :: after, false⟩
  else ⟨fs, [], true⟩

/-- The `src/index.js` stub block: written when absent or when `--force`
is set. -/
def stubStep (w : World) (opts : Opts) (fs : FS) : StepOut :=
  if !fsExists fs "src/index.js" || opts.force then
    writeStep w "src/index.js" stubContent [Ev.log "Wrote src/index.js (stub)."] fs
  else ⟨fs, [Ev.log "Skipping src/index.js (exists)."], false⟩

/-- `safeWrite`: skip (with a console report) when the file exists and
`force` is not set, else write and report. -/
def safeWrite (w : World) (p c : String) (force : Bool) (fs : FS) : StepOut :=
  if fsExists fs p && !force then
    ⟨fs, [Ev.log ("Skipping " ++ p ++ " (exists). Use --force to overwrite.")], false⟩
  else writeStep w p c [Ev.log ("Wrote " ++ p)] fs

/-- The `DEFAULT_FILES` loop: one `safeWrite` per entry, in order. -/
def templatesStep (w : World) (force : Bool) (fs : FS) : StepOut :=
  DEFAULT_FILES.foldl (fun acc pc => seqStep acc (safeWrite w pc.1 pc.2 force)) ⟨fs, [], false⟩

/-- The LICENSE block: written when absent or when `--force` is set; the
git subprocess is queried exactly when both `opts.name` and `pkg.author`
are falsy. -/
def licenseStep (w : World) (opts : Opts) (pkg : JObj) (fs : FS) : StepOut :=
  if !fsExists fs "LICENSE" || opts.force then
    let author := getKey pkg "author"
    let gitEvs := if flagTruthy opts.name || truthyOpt author then ([] : List Ev)
                  else [Ev.spawn "git" ["config", "--get", "user.name"]]
    let nm := resolveAuthor opts.name author w.git
    let b := writeStep w "LICENSE" (licenseText w.year nm) [Ev.log "Wrote LICENSE"] fs
    ⟨b.fs, gitEvs ++ b.evs, b.crashed⟩
  else ⟨fs, [Ev.log "Skipping LICENSE (exists)."], false⟩

/-- The timestamped backup filename `package.json.setup-backup.<now>.json`
(its basename equals itself, as it lives in the working directory). -/
def bakName (now : Nat) : String :=
  "package.json.setup-backup." ++ toString now ++ ".json"

/-- Backup write, manifest rewrite, stub, templates and LICENSE, in source
order, starting from the initial file system. -/
def phase2 (w : World) (opts : Opts) (pkg : JObj) (raw : String) : StepOut :=
  seqStep (writeStep w (bakName w.now) raw
      [Ev.log ("Backed up package.json -> " ++ bakName w.now)] w.fs) (fun fs1 =>
  seqStep (writeStep w "package.json" (w.stringify (.obj (mergeManifest pkg)) ++ "\n")
      [Ev.log "Updated package.json (merged fields)."] fs1) (fun fs2 =>
  seqStep (stubStep w opts fs2) (fun fs3 =>
  seqStep (templatesStep w opts.force fs3) (fun fs4 =>
  licenseStep w opts pkg fs4))))

/-- How a run ends: `process.exit(code)`, or a crash of the async IIFE
(unhandled exception or promise rejection). -/
inductive Outcome where
  | exited (code : Nat)
  | crashed
deriving DecidableEq, Repr

/-- One installer attempt: the subprocess spawn, then either the success
logs or the failure report with the manual retry line. -/
def installAttempt (w : World) (pkgMgr cmd : String) (args : List String) (retry : String) :
    List Ev × Outcome :=
  if w.installExit = 0 then
    ([Ev.spawn cmd args, Ev.log "Installed devDependencies.",
      Ev.log "All done. Run \x60npm run build\x60 to verify the build works."], .exited 0)
  else
    ([Ev.spawn cmd args,
      Ev.logErr (pkgMgr ++ " install failed: " ++ cmd ++ " exited " ++ toString w.installExit),
      Ev.logErr ("You may retry manually: " ++ retry ++ depsJoined)], .exited 2)

/-- The install stage: skip under `--no-install`, else select the command
by package manager; an unrecognised manager throws inside the `try`, is
caught, reported without a retry line, and exits 2. -/
def installPhase (w : World) (opts : Opts) : List Ev × Outcome :=
  if opts.noInstall then
    ([Ev.log "Skipping install ( --no-install )",
      Ev.log "Done. Review and commit the changes if OK."], .exited 0)
  else
    let res :=
      if opts.pkg = "npm" then
        installAttempt w "npm" "npm" (["install", "--save-dev"] ++ devDeps) "npm install --save-dev "
      else if opts.pkg = "pnpm" then
        installAttempt w "pnpm" "pnpm" (["add", "-D"] ++ devDeps) "pnpm add -D "
      else if opts.pkg = "yarn" then
        installAttempt w "yarn" "yarn" (["add", "--dev"] ++ devDeps) "yarn add --dev "
      else
        ([Ev.logErr (opts.pkg ++ " install failed: Unsupported package manager: " ++ opts.pkg)],
         .exited 2)
    (Ev.log ("Installing devDependencies: " ++ depsJoined) :: res.1, res.2)

/-- The `console.error` line of the missing-manifest guard. -/
def noPkgMsg : String :=
  "No package.json found in this directory. Run \"npm init\" first or run this in a project root."

/-- A whole run: final file system, ordered event trace, outcome. -/
structure RunResult where
  fs : FS
  events : List Ev
  outcome : Outcome
deriving Repr

/-- The `main` async IIFE, from the `existsSync(pkgPath)` guard onwards
(the guard and the subsequent read are one lookup here).  A `JSON.parse`
exception or a rejected write crashes the IIFE: no later step runs. -/
def main (w : World) (opts : Opts) : RunResult :=
  match fsRead w.fs "package.json" with
  | none => ⟨w.fs, [Ev.logErr noPkgMsg], .exited 1⟩
  | some raw =>
    match w.parse raw with
    | none => ⟨w.fs, [], .crashed⟩
    | some pkg =>
      let s := phase2 w opts pkg raw
      if s.crashed then ⟨s.fs, s.evs, .crashed⟩
      else
        let r := installPhase w opts
        ⟨s.fs, s.evs ++ r.1, r.2⟩

theorem getKey_setKey_self (o : JObj) (k : String) (v : JVal) :
    getKey (setKey o k v) k = some v := by
  induction o with
  | nil => simp [setKey, getKey]
  | cons kv rest ih =>
      obtain ⟨k2, v2⟩ := kv
      by_cases h : k2 = k <;> simp [setKey, getKey, h, ih]

theorem getKey_setKey_ne (o : JObj) {k k' : String} (v : JVal) (h : k' ≠ k) :
    getKey (setKey o k v) k' = getKey o k' := by
  induction o with
  | nil => simp [setKey, getKey, Ne.symm h]
  | cons kv rest ih =>
      obtain ⟨k2, v2⟩ := kv
      by_cases h1 : k2 = k
      · subst h1
        simp [setKey, getKey, Ne.symm h]
      · by_cases h2 : k2 = k'
        · simp [setKey, getKey, h1, h2, Ne.symm h, h]
        · simp [setKey, getKey, h1, h2, ih]

theorem setKey_self (o : JObj) (k : String) (v : JVal) (h : getKey o k = some v) :
    setKey o k v = o := by
  induction o with
  | nil => simp [getKey] at h
  | cons kv rest ih =>
      obtain ⟨k2, v2⟩ := kv
      by_cases h1 : k2 = k
      · subst h1
        simp [getKey] at h
        simp [setKey, h]
      · simp [getKey, h1] at h
        simp [setKey, h1, ih h]

theorem fillStep_id_of_truthy {o : JObj} {k : String} (v : JVal)
    (h : truthyOpt (getKey o k) = true) : fillStep o k v = o := by
  simp [fillStep, h]

theorem fillStep_getKey_ne {o : JObj} {k k' : String} (v : JVal) (h : k' ≠ k) :
    getKey (fillStep o k v) k' = getKey o k' := by
  unfold fillStep
  split
  · rfl
  · exact getKey_setKey_ne o v h

theorem fillStep_getKey_of_truthy {o : JObj} {k' : String} (k : String) (v : JVal)
    (h : truthyOpt (getKey o k') = true) :
    getKey (fillStep o k v) k' = getKey o k' := by
  by_cases e : k' = k
  · subst e
    rw [fillStep_id_of_truthy v h]
  · exact fillStep_getKey_ne v e

theorem fillStep_truthy_after (o : JObj) (k : String) (v : JVal)
    (hv : v.truthy = true) : truthyOpt (getKey (fillStep o k v) k) = true := by
  unfold fillStep
  split
  · assumption
  · rw [getKey_setKey_self]
    simpa [truthyOpt] using hv

theorem fillAll_nil (o : JObj) : fillAll o [] = o := rfl

theorem fillAll_cons (o : JObj) (kv : String × JVal) (rest : List (String × JVal)) :
    fillAll o (kv :: rest) = fillAll (fillStep o kv.1 kv.2) rest := rfl

theorem fillAll_getKey_of_truthy : ∀ (kvs : List (String × JVal)) (o : JObj) (k : String),
    truthyOpt (getKey o k) = true → getKey (fillAll o kvs) k = getKey o k
  | [], _, _, _ => rfl
  | kv :: rest, o, k, h => by
      rw [fillAll_cons]
      have e := fillStep_getKey_of_truthy kv.1 kv.2 h
      rw [fillAll_getKey_of_truthy rest _ k (by rw [e]; exact h), e]

theorem fillAll_getKey_ne : ∀ (kvs : List (String × JVal)) (o : JObj) (k : String),
    (∀ kv ∈ kvs, k ≠ kv.1) → getKey (fillAll o kvs) k = getKey o k
  | [], _, _, _ => rfl
  | kv :: rest, o, k, h => by
      rw [fillAll_cons, fillAll_getKey_ne rest _ k (fun x hx => h x (List.mem_cons_of_mem kv hx)),
        fillStep_getKey_ne _ (h kv (List.mem_cons_self kv rest))]

theorem fillAll_truthy_after : ∀ (kvs : List (String × JVal)) (o : JObj) (kv : String × JVal),
    kv ∈ kvs → kv.2.truthy = true → truthyOpt (getKey (fillAll o kvs) kv.1) = true
  | [], _, _, hm, _ => by cases hm
  | kv0 :: rest, o, kv, hm, hv => by
      rw [fillAll_cons]
      rcases List.mem_cons.mp hm with he | hm'
      · subst he
        have h1 : truthyOpt (getKey (fillStep o kv.1 kv.2) kv.1) = true :=
          fillStep_truthy_after o kv.1 kv.2 hv
        rw [fillAll_getKey_of_truthy rest _ _ h1]
        exact h1
      · exact fillAll_truthy_after rest _ kv hm' hv

theorem fillAll_id_of_truthy : ∀ (o : JObj) (kvs : List (String × JVal)),
    (∀ kv ∈ kvs, truthyOpt (getKey o kv.1) = true) → fillAll o kvs = o
  | _, [], _ => rfl
  | o, kv :: rest, h => by
      rw [fillAll_cons, fillStep_id_of_truthy _ (h kv (List.mem_cons_self kv rest))]
      exact fillAll_id_of_truthy o rest (fun x hx => h x (List.mem_cons_of_mem kv hx))

theorem fillAll_default : ∀ (kvs : List (String × JVal)) (o : JObj) (kv : String × JVal),
    (kvs.map Prod.fst).Nodup → kv ∈ kvs → truthyOpt (getKey o kv.1) = false →
    kv.2.truthy = true → getKey (fillAll o kvs) kv.1 = some kv.2
  | [], _, _, _, hm, _, _ => by cases hm
  | kv0 :: rest, o, kv, nodup, hm, hf, hv => by
      rw [fillAll_cons]
      rcases List.mem_cons.mp hm with he | hm'
      · subst he
        have h1 : fillStep o kv.1 kv.2 = setKey o kv.1 kv.2 := by simp [fillStep, hf]
        have h2 : truthyOpt (getKey (setKey o kv.1 kv.2) kv.1) = true := by
          rw [getKey_setKey_self]
          simpa [truthyOpt] using hv
        rw [h1, fillAll_getKey_of_truthy rest _ _ h2, getKey_setKey_self]
      · have hne : kv.1 ≠ kv0.1 := by
          intro he
          have hmem : kv.1 ∈ rest.map Prod.fst := List.mem_map_of_mem Prod.fst hm'
          rw [he] at hmem
          exact (List.nodup_cons.mp (by simpa using nodup)).1 hmem
        refine fillAll_default rest _ kv (List.nodup_cons.mp (by simpa using nodup)).2 hm' ?_ hv
        rw [fillStep_getKey_ne _ hne]
        exact hf

/-- The default value the merge assigns to an absent (or falsy) top-level
manifest key, from the `defaults` object. -/
def defaultTop : String → JVal
  | "type" => .str "module"
  | "main" => .str "dist/cjs/index.cjs"
  | "module" => .str "dist/esm/index.js"
  | "types" => .str "dist/types/index.d.ts"
  | "files" => .arr [.str "dist/"]
  | "exports" => defaultsExports
  | _ => .null

theorem mergeManifest_getKey_not_scripts (pkg : JObj) (k : String) (h : k ≠ "scripts") :
    getKey (mergeManifest pkg) k
      = getKey (fillStep (mergeSimple pkg) "exports" defaultsExports) k := by
  unfold mergeManifest
  exact getKey_setKey_ne _ _ h

theorem mergeManifest_scripts (pkg : JObj) :
    getKey (mergeManifest pkg) "scripts"
      = some (mergeScripts ((getKey (fillStep (mergeSimple pkg) "exports" defaultsExports)
          "scripts").getD .null)) := by
  unfold mergeManifest
  exact getKey_setKey_self _ _ _

theorem mergeManifest_simple_truthy (pkg : JObj) {kv : String × JVal}
    (hm : kv ∈ defaultsSimple) :
    truthyOpt (getKey (mergeManifest pkg) kv.1) = true := by
  have hv : kv.2.truthy = true := by
    have hall : ∀ x ∈ defaultsSimple, (x.2).truthy = true := by decide
    exact hall kv hm
  have hne : kv.1 ≠ "scripts" ∧ kv.1 ≠ "exports" := by
    have hall : ∀ x ∈ defaultsSimple, x.1 ≠ "scripts" ∧ x.1 ≠ "exports" := by decide
    exact hall kv hm
  have h1 : truthyOpt (getKey (mergeSimple pkg) kv.1) = true :=
    fillAll_truthy_after defaultsSimple pkg kv hm hv
  rw [mergeManifest_getKey_not_scripts pkg _ hne.1, fillStep_getKey_ne _ hne.2]
  exact h1

theorem mergeManifest_exports_truthy (pkg : JObj) :
    truthyOpt (getKey (mergeManifest pkg) "exports") = true := by
  rw [mergeManifest_getKey_not_scripts pkg _ (by decide)]
  by_cases h : truthyOpt (getKey (mergeSimple pkg) "exports") = true
  · rw [fillStep_id_of_truthy _ h]
    exact h
  · exact fillStep_truthy_after _ _ _ (by decide)

theorem mergeScripts_truthy (v : JVal) : (mergeScripts v).truthy = true := by
  cases v with
  | str s => by_cases h : s = "" <;> simp [mergeScripts, JVal.truthy, h]
  | num n => by_cases h : n = 0 <;> simp [mergeScripts, JVal.truthy, h]
  | bool b => cases b <;> simp [mergeScripts, JVal.truthy]
  | null => simp [mergeScripts, JVal.truthy]
  | arr xs => simp [mergeScripts, JVal.truthy]
  | obj sf => simp [mergeScripts, JVal.truthy]

theorem fillAll_scripts_idem (sf : JObj) :
    fillAll (fillAll sf defaultsScripts) defaultsScripts = fillAll sf defaultsScripts := by
  refine fillAll_id_of_truthy _ _ (fun kv hkv => ?_)
  refine fillAll_truthy_after defaultsScripts sf kv hkv ?_
  have hall : ∀ x ∈ defaultsScripts, (x.2).truthy = true := by decide
  exact hall kv hkv

theorem mergeScripts_idem (v : JVal) : mergeScripts (mergeScripts v) = mergeScripts v := by
  cases v with
  | str s => by_cases h : s = "" <;> simp [mergeScripts, JVal.truthy, h, fillAll_scripts_idem]
  | num n => by_cases h : n = 0 <;> simp [mergeScripts, JVal.truthy, h, fillAll_scripts_idem]
  | bool b => cases b <;> simp [mergeScripts, JVal.truthy, fillAll_scripts_idem]
  | null => simp [mergeScripts, JVal.truthy, fillAll_scripts_idem]
  | arr xs => simp [mergeScripts, JVal.truthy, fillAll_scripts_idem]
  | obj sf => simp [mergeScripts, JVal.truthy, fillAll_scripts_idem]

/-- **C1 (counterexample).**  The claim says a pre-existing top-level key is
never modified; but the guard `if (!pkg[key])` tests truthiness, not
presence, so a manifest whose `main` is the (falsy) empty string has it
replaced by the default path. -/
theorem c1_truthiness_counterexample :
    getKey [("main", JVal.str "")] "main" = some (JVal.str "") ∧
    getKey (mergeManifest [("main", JVal.str "")]) "main"
      = some (JVal.str "dist/cjs/index.cjs") := by
  constructor <;> rfl

/-- **C1 (amended).**  The merge never modifies a pre-existing top-level key
or script entry whose value is truthy; a key that is absent **or falsy**
receives the default, and a truthy script entry keeps exactly its value. -/
theorem c1_merge_preserves_truthy (pkg : JObj) :
    (∀ k ∈ ["type", "main", "module", "types", "files", "exports"],
        truthyOpt (getKey pkg k) = true →
        getKey (mergeManifest pkg) k = getKey pkg k) ∧
    (∀ k ∈ ["type", "main", "module", "types", "files", "exports"],
        truthyOpt (getKey pkg k) = false →
        getKey (mergeManifest pkg) k = some (defaultTop k)) ∧
    (∀ sf name, getKey pkg "scripts" = some (JVal.obj sf) →
        getKey (mergeManifest pkg) "scripts"
          = some (JVal.obj (fillAll sf defaultsScripts)) ∧
        (truthyOpt (getKey sf name) = true →
          getKey (fillAll sf defaultsScripts) name = getKey sf name)) := by
  have hscripts_pres : getKey (fillStep (mergeSimple pkg) "exports" defaultsExports) "scripts"
      = getKey pkg "scripts" := by
    rw [fillStep_getKey_ne _ (by decide)]
    unfold mergeSimple
    rw [fillAll_getKey_ne _ _ _ (by decide)]
  refine ⟨?_, ?_, ?_⟩
  · intro k hk htr
    have hne : k ≠ "scripts" := by
      simp only [List.mem_cons, List.not_mem_nil, or_false] at hk
      rcases hk with rfl | rfl | rfl | rfl | rfl | rfl <;> decide
    rw [mergeManifest_getKey_not_scripts pkg k hne]
    have h1 : getKey (mergeSimple pkg) k = getKey pkg k :=
      fillAll_getKey_of_truthy _ _ _ htr
    rw [fillStep_getKey_of_truthy _ _ (by rw [h1]; exact htr), h1]
  · intro k hk hfalse
    simp only [List.mem_cons, List.not_mem_nil, or_false] at hk
    rcases hk with rfl | rfl | rfl | rfl | rfl | rfl
    · rw [mergeManifest_getKey_not_scripts pkg _ (by decide),
        fillStep_getKey_of_truthy _ _ (by
          exact fillAll_truthy_after defaultsSimple pkg ("type", .str "module")
            (by decide) (by decide))]
      exact fillAll_default _ _ ("type", .str "module") (by decide) (by decide) hfalse (by decide)
    · rw [mergeManifest_getKey_not_scripts pkg _ (by decide),
        fillStep_getKey_of_truthy _ _ (by
          exact fillAll_truthy_after defaultsSimple pkg ("main", .str "dist/cjs/index.cjs")
            (by decide) (by decide))]
      exact fillAll_default _ _ ("main", .str "dist/cjs/index.cjs") (by decide) (by decide) hfalse (by decide)
    · rw [mergeManifest_getKey_not_scripts pkg _ (by decide),
        fillStep_getKey_of_truthy _ _ (by
          exact fillAll_truthy_after defaultsSimple pkg ("module", .str "dist/esm/index.js")
            (by decide) (by decide))]
      exact fillAll_default _ _ ("module", .str "dist/esm/index.js") (by decide) (by decide) hfalse (by decide)
    · rw [mergeManifest_getKey_not_scripts pkg _ (by decide),
        fillStep_getKey_of_truthy _ _ (by
          exact fillAll_truthy_after defaultsSimple pkg ("types", .str "dist/types/index.d.ts")
            (by decide) (by decide))]
      exact fillAll_default _ _ ("types", .str "dist/types/index.d.ts") (by decide) (by decide) hfalse (by decide)
    · rw [mergeManifest_getKey_not_scripts pkg _ (by decide),
        fillStep_getKey_of_truthy _ _ (by
          exact fillAll_truthy_after defaultsSimple pkg ("files", .arr [.str "dist/"])
            (by decide) (by decide))]
      exact fillAll_default _ _ ("files", .arr [.str "dist/"]) (by decide) (by decide) hfalse (by decide)
    · rw [mergeManifest_getKey_not_scripts pkg _ (by decide)]
      have h1 : getKey (mergeSimple pkg) "exports" = getKey pkg "exports" :=
        fillAll_getKey_ne _ _ _ (by decide)
      unfold fillStep
      rw [h1]
      simp only [hfalse, if_false, Bool.false_eq_true]
      rw [getKey_setKey_self]
      rfl
  · intro sf name hsf
    have h2 := mergeManifest_scripts pkg
    rw [hscripts_pres, hsf] at h2
    constructor
    · rw [h2]
      simp [mergeScripts, JVal.truthy]
    · intro htr
      exact fillAll_getKey_of_truthy _ _ _ htr

/-- Witness for the amended C1 at a concrete manifest: a truthy `main` and
a truthy user script survive the merge unchanged, and an absent `type`
gains the default. -/
theorem c1_merge_preserves_truthy_witness :
    getKey (mergeManifest [("main", JVal.str "lib/custom.js"),
        ("scripts", JVal.obj [("build", JVal.str "make")])]) "main"
      = some (JVal.str "lib/custom.js") ∧
    getKey (fillAll [("build", JVal.str "make")] defaultsScripts) "build"
      = some (JVal.str "make") ∧
    getKey (mergeManifest [("main", JVal.str "lib/custom.js"),
        ("scripts", JVal.obj [("build", JVal.str "make")])]) "type"
      = some (defaultTop "type") := by
  have h := c1_merge_preserves_truthy
    [("main", JVal.str "lib/custom.js"), ("scripts", JVal.obj [("build", JVal.str "make")])]
  refine ⟨?_, ?_, ?_⟩
  · rw [h.1 "main" (by decide) (by decide)]
    decide
  · rw [(h.2.2 [("build", JVal.str "make")] "build" rfl).2 (by decide)]
    decide
  · exact h.2.1 "type" (by decide) (by decide)

-- Decidable equality of parser results, for evaluating `parseArgs` on
-- concrete argument lists.
deriving instance DecidableEq for Except

/-- In a run of the flag loop over tokens free of `--pkg`, `-p`, `-h` and
`--help`, the loop terminates normally and never changes the
package-manager field of the accumulating record. -/
theorem parseLoop_pkg_default (raw : List String) (out : Opts) :
    "--pkg" ∉ raw → "-p" ∉ raw → "-h" ∉ raw → "--help" ∉ raw →
    ∃ c : Opts, parseLoop raw out = .ok c ∧ c.pkg = out.pkg := by
  induction raw, out using parseLoop.induct with
  | case1 out => exact fun _ _ _ _ => ⟨out, rfl, rfl⟩
  | case2 a rest out ha =>
      intro h1 h2 h3 h4
      rcases ha with rfl | rfl
      · exact absurd (List.mem_cons_self _ _) h3
      · exact absurd (List.mem_cons_self _ _) h4
  | case3 rest out hc ih =>
      intro h1 h2 h3 h4
      simp only [List.mem_cons, not_or] at h1 h2 h3 h4
      obtain ⟨c, hcc, hpkg⟩ := ih h1.2 h2.2 h3.2 h4.2
      refine ⟨c, ?_, hpkg⟩
      rw [parseLoop.eq_def]
      dsimp only
      rw [if_neg (by decide), if_pos rfl]
      exact hcc
  | case4 rest out hc1 hc2 ih =>
      intro h1 h2 h3 h4
      simp only [List.mem_cons, not_or] at h1 h2 h3 h4
      obtain ⟨c, hcc, hpkg⟩ := ih h1.2 h2.2 h3.2 h4.2
      refine ⟨c, ?_, hpkg⟩
      rw [parseLoop.eq_def]
      dsimp only
      rw [if_neg (by decide), if_neg (by decide), if_pos rfl]
      exact hcc
  | case5 out v rest' hv hc1 hc2 hc3 ih =>
      intro h1 h2 h3 h4
      simp only [List.mem_cons, not_or] at h1 h2 h3 h4
      obtain ⟨c, hcc, hpkg⟩ := ih h1.2.2 h2.2.2 h3.2.2 h4.2.2
      refine ⟨c, ?_, hpkg⟩
      rw [parseLoop.eq_def]
      dsimp only
      rw [if_neg (by decide), if_neg (by decide), if_neg (by decide), if_pos rfl, if_pos hv]
      exact hcc
  | case6 out v rest' hv hc1 hc2 hc3 ih =>
      intro h1 h2 h3 h4
      simp only [List.mem_cons, not_or] at h1 h2 h3 h4
      obtain ⟨c, hcc, hpkg⟩ := ih h1.2.2 h2.2.2 h3.2.2 h4.2.2
      refine ⟨c, ?_, hpkg⟩
      rw [parseLoop.eq_def]
      dsimp only
      rw [if_neg (by decide), if_neg (by decide), if_neg (by decide), if_pos rfl, if_neg hv]
      exact hcc
  | case7 out hc1 hc2 hc3 =>
      exact fun _ _ _ _ => ⟨out, rfl, rfl⟩
  | case8 a out hc1 hc2 hc3 hc4 hc5 v rest' hv hval ih =>
      intro h1 h2 h3 h4
      rcases hc5 with rfl | rfl
      · exact absurd (List.mem_cons_self _ _) h1
      · exact absurd (List.mem_cons_self _ _) h2
  | case9 a out hc1 hc2 hc3 hc4 hc5 v rest' hv hval =>
      intro h1 h2 h3 h4
      rcases hc5 with rfl | rfl
      · exact absurd (List.mem_cons_self _ _) h1
      · exact absurd (List.mem_cons_self _ _) h2
  | case10 a out hc1 hc2 hc3 hc4 hc5 v rest' hv =>
      intro h1 h2 h3 h4
      rcases hc5 with rfl | rfl
      · exact absurd (List.mem_cons_self _ _) h1
      · exact absurd (List.mem_cons_self _ _) h2
  | case11 a out hc1 hc2 hc3 hc4 hc5 =>
      intro h1 h2 h3 h4
      rcases hc5 with rfl | rfl
      · exact absurd (List.mem_cons_self _ _) h1
      · exact absurd (List.mem_cons_self _ _) h2
  | case12 a rest out hc1 hc2 hc3 hc4 hc5 ih =>
      intro h1 h2 h3 h4
      simp only [List.mem_cons, not_or] at h1 h2 h3 h4
      obtain ⟨c, hcc, hpkg⟩ := ih h1.2 h2.2 h3.2 h4.2
      refine ⟨c, ?_, hpkg⟩
      rw [parseLoop.eq_def]
      dsimp only
      rw [if_neg hc1, if_neg hc2, if_neg hc3, if_neg hc4, if_neg hc5]
      exact hcc

/-- **C9 (counterexample).**  `["-h"]` is a non-empty argument list with no
`--pkg`/`-p` flag, yet the parser prints usage and exits 0: no
configuration record is returned at all, so the claim as stated fails. -/
theorem c9_help_counterexample :
    parseArgs ["-h"] = .error 0 ∧ ("-h" :: ([] : List String)) ≠ [] ∧
    "--pkg" ∉ ["-h"] ∧ "-p" ∉ ["-h"] := by
  refine ⟨by decide, by simp, by simp, by simp⟩

/-- **C9 (amended).**  For every non-empty argument list that contains no
`--pkg`/`-p` flag **and no help flag**, the parser returns a configuration
record whose package-manager field is the implicit default `'npm'` (with a
help flag present it exits 0 without returning a record). -/
theorem c9_default_pkg_npm (raw : List String) (hne : raw ≠ [])
    (h1 : "--pkg" ∉ raw) (h2 : "-p" ∉ raw) (h3 : "-h" ∉ raw) (h4 : "--help" ∉ raw) :
    ∃ c : Opts, parseArgs raw = .ok c ∧ c.pkg = "npm" := by
  unfold parseArgs
  rw [if_neg hne]
  exact parseLoop_pkg_default raw _ h1 h2 h3 h4

/-- Witness for the amended C9: a run with only `--force` gets the default
manager `npm`. -/
theorem c9_default_pkg_npm_witness :
    ∃ c : Opts, parseArgs ["--force"] = .ok c ∧ c.pkg = "npm" :=
  c9_default_pkg_npm ["--force"] (by decide) (by decide) (by decide) (by decide) (by decide)

/-- **C10.**  The `--pkg` value is matched case-insensitively: any value
whose lowercase form is `npm`, `pnpm` or `yarn` is accepted, and the
lowercased value is stored in the configuration record (no error exit). -/
theorem c10_pkg_case_insensitive (v : String)
    (h : jsToLower v = "npm" ∨ jsToLower v = "pnpm" ∨ jsToLower v = "yarn") :
    parseArgs ["--pkg", v]
      = .ok { noInstall := false, force := false, name := none, pkg := jsToLower v } := by
  have hv : v ≠ "" := by
    rcases h with h | h | h <;>
      (intro he; rw [he] at h; exact absurd h (by decide))
  unfold parseArgs
  rw [if_neg (by simp)]
  rw [parseLoop.eq_def]
  dsimp only
  rw [if_neg (by decide), if_neg (by decide), if_neg (by decide), if_neg (by decide),
    if_pos (by decide), if_pos hv, if_pos h]
  rfl

/-- Witness for C10 at the concrete value `NPM`. -/
theorem c10_pkg_case_insensitive_witness :
    parseArgs ["--pkg", "NPM"]
      = .ok { noInstall := false, force := false, name := none, pkg := jsToLower "NPM" } ∧
    jsToLower "NPM" = "npm" :=
  ⟨c10_pkg_case_insensitive "NPM" (by decide), by decide⟩

/-- **C2.**  The in-memory merge of default fields, exports and scripts is
idempotent: running it a second time on an already-merged manifest changes
nothing. -/
theorem c2_merge_idempotent (pkg : JObj) :
    mergeManifest (mergeManifest pkg) = mergeManifest pkg := by
  have h5 : ∀ kv ∈ defaultsSimple, truthyOpt (getKey (mergeManifest pkg) kv.1) = true :=
    fun kv hkv => mergeManifest_simple_truthy pkg hkv
  have hexp := mergeManifest_exports_truthy pkg
  have hs0 := mergeManifest_scripts pkg
  set M := mergeManifest pkg with hM
  have e1 : mergeSimple M = M := fillAll_id_of_truthy M defaultsSimple h5
  have e2 : fillStep (mergeSimple M) "exports" defaultsExports = M := by
    rw [e1]
    exact fillStep_id_of_truthy _ hexp
  show setKey (fillStep (mergeSimple M) "exports" defaultsExports) "scripts"
      (mergeScripts ((getKey (fillStep (mergeSimple M) "exports" defaultsExports)
        "scripts").getD .null)) = M
  rw [e2, hs0]
  simp only [Option.getD_some]
  rw [mergeScripts_idem]
  exact setKey_self M "scripts" _ hs0

theorem fsRead_write (fs : FS) (p c q : String) :
    fsRead (fsWrite fs p c) q = if p = q then some c else fsRead fs q := rfl

theorem fsExists_write_mono (fs : FS) (p c q : String) (h : fsExists fs q = true) :
    fsExists (fsWrite fs p c) q = true := by
  by_cases e : p = q <;> simp [fsExists, fsRead_write, e] <;> simpa [fsExists] using h

theorem fsRead_write_ne (fs : FS) (p c q : String) (h : p ≠ q) :
    fsRead (fsWrite fs p c) q = fsRead fs q := by
  simp [fsRead_write, h]

/-- The backup filename is longer than 30 characters, hence distinct from
every fixed generated-file name. -/
theorem bakName_ne_short (now : Nat) (s : String) (h : s.length < 31) : bakName now ≠ s := by
  intro he
  have hl := congrArg String.length he
  rw [bakName, String.length_append, String.length_append] at hl
  have h26 : ("package.json.setup-backup.").length = 26 := by decide
  have h5 : (".json").length = 5 := by decide
  rw [h26, h5] at hl
  omega

theorem writeStep_ok (w : World) (p c : String) (after : List Ev) (fs : FS)
    (h : w.writeOk p = true) :
    writeStep w p c after fs = ⟨fsWrite fs p c, Ev.fswrite p c :: after, false⟩ := by
  simp [writeStep, h]

theorem writeStep_fail (w : World) (p c : String) (after : List Ev) (fs : FS)
    (h : w.writeOk p = false) :
    writeStep w p c after fs = ⟨fs, [], true⟩ := by
  simp [writeStep, h]

theorem seqStep_ok (a : StepOut) (f : FS → StepOut) (h : a.crashed = false) :
    seqStep a f = ⟨(f a.fs).fs, a.evs ++ (f a.fs).evs, (f a.fs).crashed⟩ := by
  simp [seqStep, h]

theorem seqStep_crashed (a : StepOut) (f : FS → StepOut) (h : a.crashed = true) :
    seqStep a f = a := by
  simp [seqStep, h]

/-- An event is an installer-free observable: every spawned subprocess is
the git user-name query. -/
def gitOnlySpawn : Ev → Prop
  | .spawn c _ => c = "git"
  | _ => True

theorem gitOnlySpawn_log (s : String) : gitOnlySpawn (Ev.log s) := trivial

theorem seqStep_gitOnly (a : StepOut) (f : FS → StepOut)
    (ha : ∀ e ∈ a.evs, gitOnlySpawn e) (hf : ∀ fs, ∀ e ∈ (f fs).evs, gitOnlySpawn e) :
    ∀ e ∈ (seqStep a f).evs, gitOnlySpawn e := by
  unfold seqStep
  split
  · exact ha
  · intro e he
    rcases List.mem_append.mp he with h | h
    · exact ha e h
    · exact hf a.fs e h

theorem writeStep_gitOnly (w : World) (p c : String) (after : List Ev) (fs : FS)
    (hafter : ∀ e ∈ after, gitOnlySpawn e) :
    ∀ e ∈ (writeStep w p c after fs).evs, gitOnlySpawn e := by
  unfold writeStep
  split
  · intro e he
    rcases List.mem_cons.mp he with rfl | h
    · exact trivial
    · exact hafter e h
  · intro e he
    cases he

theorem stubStep_gitOnly (w : World) (opts : Opts) (fs : FS) :
    ∀ e ∈ (stubStep w opts fs).evs, gitOnlySpawn e := by
  unfold stubStep
  split
  · exact writeStep_gitOnly w _ _ _ fs (by intro e he; rcases List.mem_singleton.mp he with rfl; exact trivial)
  · intro e he
    rcases List.mem_singleton.mp he with rfl
    exact trivial

theorem safeWrite_gitOnly (w : World) (p c : String) (force : Bool) (fs : FS) :
    ∀ e ∈ (safeWrite w p c force fs).evs, gitOnlySpawn e := by
  unfold safeWrite
  split
  · intro e he
    rcases List.mem_singleton.mp he with rfl
    exact trivial
  · exact writeStep_gitOnly w _ _ _ fs (by intro e he; rcases List.mem_singleton.mp he with rfl; exact trivial)

theorem templatesStep_gitOnly (w : World) (force : Bool) (fs : FS) :
    ∀ e ∈ (templatesStep w force fs).evs, gitOnlySpawn e := by
  unfold templatesStep DEFAULT_FILES
  simp only [List.foldl]
  refine seqStep_gitOnly _ _ (seqStep_gitOnly _ _ (seqStep_gitOnly _ _ (seqStep_gitOnly _ _
    (seqStep_gitOnly _ _ ?_ ?_) ?_) ?_) ?_) ?_
  · intro e he
    cases he
  all_goals (intro fs1; exact safeWrite_gitOnly w _ _ force fs1)

theorem licenseStep_gitOnly (w : World) (opts : Opts) (pkg : JObj) (fs : FS) :
    ∀ e ∈ (licenseStep w opts pkg fs).evs, gitOnlySpawn e := by
  unfold licenseStep
  split
  · intro e he
    rcases List.mem_append.mp he with h | h
    · split at h
      · cases h
      · rcases List.mem_singleton.mp h with rfl
        exact rfl
    · exact writeStep_gitOnly w _ _ _ fs
        (by intro x hx; rcases List.mem_singleton.mp hx with rfl; exact trivial) e h
  · intro e he
    rcases List.mem_singleton.mp he with rfl
    exact trivial

theorem phase2_gitOnly (w : World) (opts : Opts) (pkg : JObj) (raw : String) :
    ∀ e ∈ (phase2 w opts pkg raw).evs, gitOnlySpawn e := by
  unfold phase2
  refine seqStep_gitOnly _ _ ?_ (fun fs1 => seqStep_gitOnly _ _ ?_ (fun fs2 =>
    seqStep_gitOnly _ _ (stubStep_gitOnly w opts fs2) (fun fs3 =>
    seqStep_gitOnly _ _ (templatesStep_gitOnly w opts.force fs3) (fun fs4 =>
    licenseStep_gitOnly w opts pkg fs4))))
  · exact writeStep_gitOnly w _ _ _ _
      (by intro e he; rcases List.mem_singleton.mp he with rfl; exact trivial)
  · exact writeStep_gitOnly w _ _ _ _
      (by intro e he; rcases List.mem_singleton.mp he with rfl; exact trivial)

theorem stubStep_not_crashed (w : World) (opts : Opts) (fs : FS)
    (hw : ∀ p, w.writeOk p = true) : (stubStep w opts fs).crashed = false := by
  unfold stubStep
  split
  · rw [writeStep_ok w _ _ _ fs (hw _)]
  · rfl

theorem safeWrite_not_crashed (w : World) (p c : String) (force : Bool) (fs : FS)
    (hw : ∀ q, w.writeOk q = true) : (safeWrite w p c force fs).crashed = false := by
  unfold safeWrite
  split
  · rfl
  · rw [writeStep_ok w _ _ _ fs (hw _)]

theorem seqStep_not_crashed (a : StepOut) (f : FS → StepOut)
    (ha : a.crashed = false) (hf : ∀ fs, (f fs).crashed = false) :
    (seqStep a f).crashed = false := by
  rw [seqStep_ok a f ha]
  exact hf a.fs

theorem templatesStep_not_crashed (w : World) (force : Bool) (fs : FS)
    (hw : ∀ p, w.writeOk p = true) : (templatesStep w force fs).crashed = false := by
  unfold templatesStep DEFAULT_FILES
  simp only [List.foldl]
  refine seqStep_not_crashed _ _ (seqStep_not_crashed _ _ (seqStep_not_crashed _ _
    (seqStep_not_crashed _ _ (seqStep_not_crashed _ _ rfl ?_) ?_) ?_) ?_) ?_
  all_goals (intro fs1; exact safeWrite_not_crashed w _ _ force fs1 hw)

theorem licenseStep_not_crashed (w : World) (opts : Opts) (pkg : JObj) (fs : FS)
    (hw : ∀ p, w.writeOk p = true) : (licenseStep w opts pkg fs).crashed = false := by
  unfold licenseStep
  split
  · dsimp only
    rw [writeStep_ok w _ _ _ fs (hw _)]
  · rfl

theorem phase2_not_crashed (w : World) (opts : Opts) (pkg : JObj) (raw : String)
    (hw : ∀ p, w.writeOk p = true) : (phase2 w opts pkg raw).crashed = false := by
  unfold phase2
  refine seqStep_not_crashed _ _ (by rw [writeStep_ok w _ _ _ _ (hw _)]) (fun fs1 =>
    seqStep_not_crashed _ _ (by rw [writeStep_ok w _ _ _ _ (hw _)]) (fun fs2 =>
    seqStep_not_crashed _ _ (stubStep_not_crashed w opts fs2 hw) (fun fs3 =>
    seqStep_not_crashed _ _ (templatesStep_not_crashed w opts.force fs3 hw) (fun fs4 =>
    licenseStep_not_crashed w opts pkg fs4 hw))))

/-- Reduction of `main` once the manifest has been read and parsed. -/
theorem main_reduce (w : World) (opts : Opts) (raw : String) (pkg : JObj)
    (hread : fsRead w.fs "package.json" = some raw)
    (hparse : w.parse raw = some pkg) :
    main w opts =
      if (phase2 w opts pkg raw).crashed then
        ⟨(phase2 w opts pkg raw).fs, (phase2 w opts pkg raw).evs, .crashed⟩
      else ⟨(phase2 w opts pkg raw).fs,
        (phase2 w opts pkg raw).evs ++ (installPhase w opts).1, (installPhase w opts).2⟩ := by
  unfold main
  rw [hread]
  dsimp only
  rw [hparse]

/-- **C5.**  With no manifest in the working directory the run writes
nothing at all (the final file system is the initial one and the trace has
no write event), prints the missing-manifest error, and exits 1. -/
theorem c5_missing_manifest (w : World) (opts : Opts)
    (h : fsRead w.fs "package.json" = none) :
    main w opts = ⟨w.fs, [Ev.logErr noPkgMsg], .exited 1⟩ := by
  unfold main
  rw [h]

/-- Witness for C5: an empty directory exits 1 with only the error line. -/
theorem c5_missing_manifest_witness :
    main { fs := [], now := 0, year := 2026, git := none, installExit := 0,
           writeOk := fun _ => true, parse := fun _ => none, stringify := fun _ => "" }
        { noInstall := true, force := false, name := none, pkg := "npm" }
      = ⟨[], [Ev.logErr noPkgMsg], .exited 1⟩ :=
  c5_missing_manifest _ _ rfl

/-- **C4 (counterexample).**  A run of `roll-up --no-install` in a project
whose manifest has no author and which has no LICENSE file spawns the
`git config --get user.name` subprocess, so "no subprocess is spawned"
fails as stated. -/
theorem c4_git_spawn_counterexample :
    parseArgs ["--no-install"]
      = .ok { noInstall := true, force := false, name := none, pkg := "npm" } ∧
    Ev.spawn "git" ["config", "--get", "user.name"] ∈
      (main { fs := [("package.json", "\x7b\x7d")], now := 0, year := 2026, git := none,
              installExit := 0, writeOk := fun _ => true, parse := fun _ => some [],
              stringify := fun _ => "\x7b\x7d" }
        { noInstall := true, force := false, name := none, pkg := "npm" }).events := by
  exact ⟨by decide, by decide⟩

/-- **C4 (amended).**  Under `--no-install`, in a run where the manifest
exists and parses and every file write succeeds, no installer subprocess is
spawned — the only subprocess the run may spawn is the best-effort git
user-name query — and the process exits with code 0. -/
theorem c4_no_install_no_installer (w : World) (opts : Opts) (raw : String) (pkg : JObj)
    (hni : opts.noInstall = true) (hw : ∀ p, w.writeOk p = true)
    (hread : fsRead w.fs "package.json" = some raw) (hparse : w.parse raw = some pkg) :
    (main w opts).outcome = .exited 0 ∧
    ∀ cmd args, Ev.spawn cmd args ∈ (main w opts).events → cmd = "git" := by
  have hcr := phase2_not_crashed w opts pkg raw hw
  rw [main_reduce w opts raw pkg hread hparse, hcr]
  simp only [Bool.false_eq_true, if_false]
  constructor
  · show (installPhase w opts).2 = .exited 0
    simp [installPhase, hni]
  · intro cmd args hmem
    rcases List.mem_append.mp hmem with h | h
    · have := phase2_gitOnly w opts pkg raw _ h
      simpa [gitOnlySpawn] using this
    · simp [installPhase, hni] at h

/-- Witness for the amended C4: a concrete `--no-install` run exits 0. -/
theorem c4_no_install_no_installer_witness :
    (main { fs := [("package.json", "\x7b\x7d")], now := 0, year := 2026, git := none,
            installExit := 0, writeOk := fun _ => true, parse := fun _ => some [],
            stringify := fun _ => "\x7b\x7d" }
        { noInstall := true, force := false, name := none, pkg := "npm" }).outcome
      = .exited 0 :=
  (c4_no_install_no_installer
    { fs := [("package.json", "\x7b\x7d")], now := 0, year := 2026, git := none,
      installExit := 0, writeOk := fun _ => true, parse := fun _ => some [],
      stringify := fun _ => "\x7b\x7d" }
    { noInstall := true, force := false, name := none, pkg := "npm" }
    "\x7b\x7d" [] rfl (fun _ => rfl) rfl rfl).1

/-- **C6.**  With `--pkg yarn` and a failing installer, the run reports the
failure, prints the manual retry line `yarn add --dev` followed by the
fixed dependency list in order, and exits 2. -/
theorem c6_yarn_retry (w : World) (opts : Opts) (raw : String) (pkg : JObj)
    (hw : ∀ p, w.writeOk p = true)
    (hread : fsRead w.fs "package.json" = some raw) (hparse : w.parse raw = some pkg)
    (hpkg : opts.pkg = "yarn") (hni : opts.noInstall = false)
    (hfail : w.installExit ≠ 0) :
    (main w opts).outcome = .exited 2 ∧
    Ev.logErr ("You may retry manually: yarn add --dev " ++ depsJoined)
      ∈ (main w opts).events ∧
    depsJoined = "@rollup/plugin-commonjs@^29.0.0 @rollup/plugin-node-resolve@^16.0.3 rollup@^2.79.2 rollup-plugin-terser@^7.0.2 typescript@^5.9.3 @types/node@^24.10.1" := by
  have hcr := phase2_not_crashed w opts pkg raw hw
  rw [main_reduce w opts raw pkg hread hparse, hcr]
  simp only [Bool.false_eq_true, if_false]
  refine ⟨?_, ?_, by decide⟩
  · show (installPhase w opts).2 = .exited 2
    simp [installPhase, installAttempt, hni, hpkg, hfail]
  · simp [installPhase, installAttempt, hni, hpkg, hfail]

/-- Witness for C6: a concrete failing yarn install exits 2. -/
theorem c6_yarn_retry_witness :
    (main { fs := [("package.json", "\x7b\x7d")], now := 0, year := 2026, git := none,
            installExit := 1, writeOk := fun _ => true, parse := fun _ => some [],
            stringify := fun _ => "\x7b\x7d" }
        { noInstall := false, force := false, name := none, pkg := "yarn" }).outcome
      = .exited 2 :=
  (c6_yarn_retry
    { fs := [("package.json", "\x7b\x7d")], now := 0, year := 2026, git := none,
      installExit := 1, writeOk := fun _ => true, parse := fun _ => some [],
      stringify := fun _ => "\x7b\x7d" }
    { noInstall := false, force := false, name := none, pkg := "yarn" }
    "\x7b\x7d" [] (fun _ => rfl) rfl rfl rfl rfl (by decide)).1

/-- **C3.**  In every run that reads and parses the manifest: if the backup
write fails, the run crashes with the file system untouched and an empty
trace (in particular the manifest is never rewritten); if the backup write
succeeds, the very first two events of the run are the backup write —
whose content is byte-for-byte the raw manifest text — and its console
report, so the backup precedes every other write; and when the manifest
rewrite also succeeds it is the event immediately after. -/
theorem c3_backup_first (w : World) (opts : Opts) (raw : String) (pkg : JObj)
    (hread : fsRead w.fs "package.json" = some raw)
    (hparse : w.parse raw = some pkg) :
    (w.writeOk (bakName w.now) = false →
        (main w opts).outcome = .crashed ∧ (main w opts).fs = w.fs ∧
        (main w opts).events = []) ∧
    (w.writeOk (bakName w.now) = true →
        ∃ rest, (main w opts).events
          = Ev.fswrite (bakName w.now) raw
            :: Ev.log ("Backed up package.json -> " ++ bakName w.now) :: rest) ∧
    (w.writeOk (bakName w.now) = true → w.writeOk "package.json" = true →
        ∃ rest, (main w opts).events
          = Ev.fswrite (bakName w.now) raw
            :: Ev.log ("Backed up package.json -> " ++ bakName w.now)
            :: Ev.fswrite "package.json" (w.stringify (.obj (mergeManifest pkg)) ++ "\n")
            :: Ev.log "Updated package.json (merged fields)." :: rest) := by
  rw [main_reduce w opts raw pkg hread hparse]
  refine ⟨?_, ?_, ?_⟩
  · intro hbak
    have hp : phase2 w opts pkg raw = ⟨w.fs, [], true⟩ := by
      unfold phase2
      rw [writeStep_fail w _ _ _ _ hbak]
      exact seqStep_crashed _ _ rfl
    simp [hp]
  · intro hbak
    obtain ⟨fs2, evs2, cr2, hp⟩ :
        ∃ fs2 evs2 cr2, phase2 w opts pkg raw
          = ⟨fs2, Ev.fswrite (bakName w.now) raw
              :: Ev.log ("Backed up package.json -> " ++ bakName w.now) :: evs2, cr2⟩ := by
      unfold phase2
      rw [writeStep_ok w _ _ _ _ hbak, seqStep_ok _ _ rfl]
      exact ⟨_, _, _, rfl⟩
    rw [hp]
    cases cr2 <;> simp
  · intro hbak hpj
    obtain ⟨fs3, evs3, cr3, hp⟩ :
        ∃ fs3 evs3 cr3, phase2 w opts pkg raw
          = ⟨fs3, Ev.fswrite (bakName w.now) raw
              :: Ev.log ("Backed up package.json -> " ++ bakName w.now)
              :: Ev.fswrite "package.json" (w.stringify (.obj (mergeManifest pkg)) ++ "\n")
              :: Ev.log "Updated package.json (merged fields)." :: evs3, cr3⟩ := by
      unfold phase2
      rw [writeStep_ok w _ _ _ _ hbak, seqStep_ok _ _ rfl]
      dsimp only
      rw [writeStep_ok w _ _ _ _ hpj, seqStep_ok _ _ rfl]
      exact ⟨_, _, _, rfl⟩
    rw [hp]
    cases cr3 <;> simp

/-- Witness for C3 at two concrete worlds: a failing backup write crashes
with nothing written, and a succeeding one puts the backup first. -/
theorem c3_backup_first_witness :
    (main { fs := [("package.json", "\x7b\x7d")], now := 0, year := 2026, git := none,
            installExit := 0, writeOk := fun _ => false, parse := fun _ => some [],
            stringify := fun _ => "\x7b\x7d" }
        { noInstall := true, force := false, name := none, pkg := "npm" }).events = [] ∧
    (∃ rest, (main { fs := [("package.json", "\x7b\x7d")], now := 0, year := 2026,
                     git := none, installExit := 0, writeOk := fun _ => true,
                     parse := fun _ => some [], stringify := fun _ => "\x7b\x7d" }
        { noInstall := true, force := false, name := none, pkg := "npm" }).events
      = Ev.fswrite (bakName 0) "\x7b\x7d"
        :: Ev.log ("Backed up package.json -> " ++ bakName 0) :: rest) :=
  ⟨((c3_backup_first
      { fs := [("package.json", "\x7b\x7d")], now := 0, year := 2026, git := none,
        installExit := 0, writeOk := fun _ => false, parse := fun _ => some [],
        stringify := fun _ => "\x7b\x7d" }
      { noInstall := true, force := false, name := none, pkg := "npm" }
      "\x7b\x7d" [] rfl rfl).1 rfl).2.2,
   (c3_backup_first
      { fs := [("package.json", "\x7b\x7d")], now := 0, year := 2026, git := none,
        installExit := 0, writeOk := fun _ => true, parse := fun _ => some [],
        stringify := fun _ => "\x7b\x7d" }
      { noInstall := true, force := false, name := none, pkg := "npm" }
      "\x7b\x7d" [] rfl rfl).2.1 rfl⟩

theorem fsExists_write_ne (fs : FS) (p c q : String) (h : p ≠ q) :
    fsExists (fsWrite fs p c) q = fsExists fs q := by
  simp [fsExists, fsRead_write_ne fs p c q h]

theorem stubStep_exists_pres (w : World) (opts : Opts) (fs : FS) (q : String)
    (hq : "src/index.js" ≠ q) :
    fsExists (stubStep w opts fs).fs q = fsExists fs q := by
  unfold stubStep writeStep
  split
  · split
    · simp [fsExists_write_ne fs _ _ q hq]
    · rfl
  · rfl

theorem safeWrite_exists_pres (w : World) (p c : String) (force : Bool) (fs : FS) (q : String)
    (hq : p ≠ q) :
    fsExists (safeWrite w p c force fs).fs q = fsExists fs q := by
  unfold safeWrite writeStep
  split
  · rfl
  · split
    · simp [fsExists_write_ne fs p c q hq]
    · rfl

theorem seqStep_exists_pres (a : StepOut) (f : FS → StepOut) (q : String) (fs0 : FS)
    (ha : fsExists a.fs q = fsExists fs0 q)
    (hf : ∀ fs, fsExists (f fs).fs q = fsExists fs q) :
    fsExists (seqStep a f).fs q = fsExists fs0 q := by
  unfold seqStep
  split
  · exact ha
  · dsimp only
    rw [hf a.fs, ha]

theorem templatesStep_exists_pres (w : World) (force : Bool) (fs : FS) (q : String)
    (hr : "rollup.config.js" ≠ q) (ht : "tsconfig.types.json" ≠ q)
    (hg : ".gitignore" ≠ q) (hn : ".npmignore" ≠ q) (hm : "README.md" ≠ q) :
    fsExists (templatesStep w force fs).fs q = fsExists fs q := by
  unfold templatesStep DEFAULT_FILES
  simp only [List.foldl]
  refine seqStep_exists_pres _ _ q fs ?_ (fun fs1 => safeWrite_exists_pres w _ _ force fs1 q hm)
  refine seqStep_exists_pres _ _ q fs ?_ (fun fs1 => safeWrite_exists_pres w _ _ force fs1 q hn)
  refine seqStep_exists_pres _ _ q fs ?_ (fun fs1 => safeWrite_exists_pres w _ _ force fs1 q hg)
  refine seqStep_exists_pres _ _ q fs ?_ (fun fs1 => safeWrite_exists_pres w _ _ force fs1 q ht)
  refine seqStep_exists_pres _ _ q fs ?_ (fun fs1 => safeWrite_exists_pres w _ _ force fs1 q hr)
  rfl

theorem licenseStep_write (w : World) (opts : Opts) (pkg : JObj) (fs : FS)
    (hnl : fsExists fs "LICENSE" = false) (hw : w.writeOk "LICENSE" = true) :
    licenseStep w opts pkg fs
      = ⟨fsWrite fs "LICENSE"
            (licenseText w.year (resolveAuthor opts.name (getKey pkg "author") w.git)),
         (if flagTruthy opts.name || truthyOpt (getKey pkg "author") then []
          else [Ev.spawn "git" ["config", "--get", "user.name"]])
           ++ [Ev.fswrite "LICENSE"
                 (licenseText w.year (resolveAuthor opts.name (getKey pkg "author") w.git)),
               Ev.log "Wrote LICENSE"], false⟩ := by
  unfold licenseStep
  rw [if_pos (by simp [hnl])]
  dsimp only
  rw [writeStep_ok w _ _ _ _ hw]

/-- The author fallback chain exactly as the spec words it: "the explicit
--name flag value if given, else the manifest's author field, else the
result of querying the version-control tool's configured user name, else
the literal placeholder".  No truthiness test on the flag or the author
field, and the git output used as returned.  Stated only to compare the
spec's chain with the implemented `resolveAuthor`. -/
def specResolveAuthor (flagName : Option String) (author : Option JVal)
    (git : Option String) : String :=
  match flagName with
  | some s => s
  | none =>
    match author with
    | some a => jsToString a
    | none =>
      match git with
      | some n => n
      | none => "Your Name"

/-- **C7 (counterexample).**  A manifest whose `author` field is present but
the empty string: the spec's chain uses that field (the license would embed
the empty name), but the code's `||` chain skips every falsy value and falls
through to the git query, here failing, so the placeholder is embedded. -/
theorem c7_author_truthiness_counterexample :
    resolveAuthor none (some (JVal.str "")) none = "Your Name" ∧
    specResolveAuthor none (some (JVal.str "")) none = "" ∧
    ("Your Name" : String) ≠ "" := by
  exact ⟨rfl, rfl, by decide⟩

/-- **C7 (amended).**  Whenever the LICENSE file is written it embeds the
current year and the name produced by `resolveAuthor`, and that resolution
is the truthy fallback chain: the `--name` value when given (non-empty),
else the manifest's author field when truthy (coerced to a string), else
the trimmed git-query output when the query succeeds with a non-whitespace
result, else the literal placeholder `Your Name`; a failed query (the
`execSync` throw is swallowed) always yields the placeholder. -/
theorem c7_license_author_chain (w : World) (opts : Opts) (raw : String) (pkg : JObj)
    (hw : ∀ p, w.writeOk p = true)
    (hread : fsRead w.fs "package.json" = some raw)
    (hparse : w.parse raw = some pkg)
    (hnl : fsExists w.fs "LICENSE" = false) :
    Ev.fswrite "LICENSE"
        (licenseText w.year (resolveAuthor opts.name (getKey pkg "author") w.git))
      ∈ (main w opts).events ∧
    (∀ s, opts.name = some s → s ≠ "" →
        resolveAuthor opts.name (getKey pkg "author") w.git = s) ∧
    (flagTruthy opts.name = false → truthyOpt (getKey pkg "author") = true →
        resolveAuthor opts.name (getKey pkg "author") w.git
          = jsToString ((getKey pkg "author").getD .null)) ∧
    (flagTruthy opts.name = false → truthyOpt (getKey pkg "author") = false →
        resolveAuthor opts.name (getKey pkg "author") w.git = gitFallback w.git) ∧
    (∀ o, gitFallback (some o) = if o.trim = "" then "Your Name" else o.trim) ∧
    gitFallback none = "Your Name" := by
  refine ⟨?_, ?_, ?_, ?_, fun o => rfl, rfl⟩
  · have hcr := phase2_not_crashed w opts pkg raw hw
    rw [main_reduce w opts raw pkg hread hparse, hcr]
    simp only [Bool.false_eq_true, if_false]
    refine List.mem_append_left _ ?_
    have hb1 : fsExists (fsWrite w.fs (bakName w.now) raw) "LICENSE" = false := by
      rw [fsExists_write_ne _ _ _ _ (bakName_ne_short w.now "LICENSE" (by decide))]
      exact hnl
    have hb2 : fsExists (fsWrite (fsWrite w.fs (bakName w.now) raw) "package.json"
        (w.stringify (.obj (mergeManifest pkg)) ++ "\n")) "LICENSE" = false := by
      rw [fsExists_write_ne _ _ _ _ (by decide)]
      exact hb1
    unfold phase2
    rw [writeStep_ok w _ _ _ _ (hw _), seqStep_ok _ _ rfl]
    dsimp only
    rw [writeStep_ok w _ _ _ _ (hw _), seqStep_ok _ _ rfl]
    dsimp only
    rw [seqStep_ok _ _ (stubStep_not_crashed w opts _ hw)]
    dsimp only
    rw [seqStep_ok _ _ (templatesStep_not_crashed w opts.force _ hw)]
    dsimp only
    rw [licenseStep_write w opts pkg _ ?hb4 (hw _)]
    · simp
    case hb4 =>
      rw [templatesStep_exists_pres w opts.force _ "LICENSE" (by decide) (by decide)
          (by decide) (by decide) (by decide),
        stubStep_exists_pres w opts _ "LICENSE" (by decide)]
      exact hb2
  · intro s hs hne
    rw [hs]
    simp [resolveAuthor, hne]
  · intro hflag hauth
    have h1 : resolveAuthor opts.name (getKey pkg "author") w.git
        = authorOr (getKey pkg "author") w.git := by
      cases hn : opts.name with
      | none => rfl
      | some s =>
          rw [hn] at hflag
          simp only [flagTruthy, ne_eq, decide_not] at hflag
          have : s = "" := by
            by_cases he : s = ""
            · exact he
            · simp [he] at hflag
          simp [resolveAuthor, this]
    rw [h1]
    cases ha : getKey pkg "author" with
    | none => rw [ha] at hauth; cases hauth
    | some a =>
        rw [ha] at hauth
        simp only [truthyOpt] at hauth
        simp [authorOr, hauth]
  · intro hflag hauth
    have h1 : resolveAuthor opts.name (getKey pkg "author") w.git
        = authorOr (getKey pkg "author") w.git := by
      cases hn : opts.name with
      | none => rfl
      | some s =>
          rw [hn] at hflag
          simp only [flagTruthy, ne_eq, decide_not] at hflag
          have : s = "" := by
            by_cases he : s = ""
            · exact he
            · simp [he] at hflag
          simp [resolveAuthor, this]
    rw [h1]
    cases ha : getKey pkg "author" with
    | none => rfl
    | some a =>
        rw [ha] at hauth
        simp only [truthyOpt] at hauth
        simp [authorOr, hauth]

/-- Witness for the amended C7: with no flag, an empty-string author field
and a failing git query, the run writes the LICENSE with the placeholder. -/
theorem c7_license_author_chain_witness :
    Ev.fswrite "LICENSE"
        (licenseText 2026 (resolveAuthor none (getKey [("author", JVal.str "")] "author") none))
      ∈ (main { fs := [("package.json", "\x7b\x7d")], now := 0, year := 2026, git := none,
                installExit := 0, writeOk := fun _ => true,
                parse := fun _ => some [("author", JVal.str "")],
                stringify := fun _ => "\x7b\x7d" }
          { noInstall := true, force := false, name := none, pkg := "npm" }).events ∧
    resolveAuthor none (getKey [("author", JVal.str "")] "author") none = "Your Name" :=
  ⟨(c7_license_author_chain
      { fs := [("package.json", "\x7b\x7d")], now := 0, year := 2026, git := none,
        installExit := 0, writeOk := fun _ => true,
        parse := fun _ => some [("author", JVal.str "")],
        stringify := fun _ => "\x7b\x7d" }
      { noInstall := true, force := false, name := none, pkg := "npm" }
      "\x7b\x7d" [("author", JVal.str "")] (fun _ => rfl) rfl rfl rfl).1, rfl⟩

theorem stubStep_skip (w : World) (opts : Opts) (fs : FS)
    (h : fsExists fs "src/index.js" = true) (hf : opts.force = false) :
    stubStep w opts fs = ⟨fs, [Ev.log "Skipping src/index.js (exists)."], false⟩ := by
  unfold stubStep
  rw [if_neg (by simp [h, hf])]

theorem safeWrite_skip (w : World) (p c : String) (fs : FS) (h : fsExists fs p = true) :
    safeWrite w p c false fs
      = ⟨fs, [Ev.log ("Skipping " ++ p ++ " (exists). Use --force to overwrite.")], false⟩ := by
  unfold safeWrite
  rw [if_pos (by simp [h])]

theorem licenseStep_skip (w : World) (opts : Opts) (pkg : JObj) (fs : FS)
    (h : fsExists fs "LICENSE" = true) (hf : opts.force = false) :
    licenseStep w opts pkg fs = ⟨fs, [Ev.log "Skipping LICENSE (exists)."], false⟩ := by
  unfold licenseStep
  rw [if_neg (by simp [h, hf])]

theorem templatesStep_skip (w : World) (fs : FS)
    (hr : fsExists fs "rollup.config.js" = true)
    (ht : fsExists fs "tsconfig.types.json" = true)
    (hg : fsExists fs ".gitignore" = true)
    (hn : fsExists fs ".npmignore" = true)
    (hm : fsExists fs "README.md" = true) :
    templatesStep w false fs
      = ⟨fs, [Ev.log ("Skipping " ++ "rollup.config.js" ++ " (exists). Use --force to overwrite."),
              Ev.log ("Skipping " ++ "tsconfig.types.json" ++ " (exists). Use --force to overwrite."),
              Ev.log ("Skipping " ++ ".gitignore" ++ " (exists). Use --force to overwrite."),
              Ev.log ("Skipping " ++ ".npmignore" ++ " (exists). Use --force to overwrite."),
              Ev.log ("Skipping " ++ "README.md" ++ " (exists). Use --force to overwrite.")], false⟩ := by
  unfold templatesStep DEFAULT_FILES
  simp only [List.foldl]
  have s1 : seqStep (⟨fs, [], false⟩ : StepOut) (safeWrite w "rollup.config.js" rollupContent false)
      = ⟨fs, [Ev.log ("Skipping " ++ "rollup.config.js" ++ " (exists). Use --force to overwrite.")], false⟩ := by
    rw [seqStep_ok _ _ rfl]
    dsimp only
    rw [safeWrite_skip w _ _ fs hr]
    rfl
  rw [s1]
  have s2 : seqStep (⟨fs, [Ev.log ("Skipping " ++ "rollup.config.js" ++ " (exists). Use --force to overwrite.")],
        false⟩ : StepOut) (safeWrite w "tsconfig.types.json" tsconfigContent false)
      = ⟨fs, [Ev.log ("Skipping " ++ "rollup.config.js" ++ " (exists). Use --force to overwrite."),
              Ev.log ("Skipping " ++ "tsconfig.types.json" ++ " (exists). Use --force to overwrite.")], false⟩ := by
    rw [seqStep_ok _ _ rfl]
    dsimp only
    rw [safeWrite_skip w _ _ fs ht]
    rfl
  rw [s2]
  have s3 : seqStep (⟨fs, [Ev.log ("Skipping " ++ "rollup.config.js" ++ " (exists). Use --force to overwrite."),
              Ev.log ("Skipping " ++ "tsconfig.types.json" ++ " (exists). Use --force to overwrite.")],
        false⟩ : StepOut) (safeWrite w ".gitignore" gitignoreContent false)
      = ⟨fs, [Ev.log ("Skipping " ++ "rollup.config.js" ++ " (exists). Use --force to overwrite."),
              Ev.log ("Skipping " ++ "tsconfig.types.json" ++ " (exists). Use --force to overwrite."),
              Ev.log ("Skipping " ++ ".gitignore" ++ " (exists). Use --force to overwrite.")], false⟩ := by
    rw [seqStep_ok _ _ rfl]
    dsimp only
    rw [safeWrite_skip w _ _ fs hg]
    rfl
  rw [s3]
  have s4 : seqStep (⟨fs, [Ev.log ("Skipping " ++ "rollup.config.js" ++ " (exists). Use --force to overwrite."),
              Ev.log ("Skipping " ++ "tsconfig.types.json" ++ " (exists). Use --force to overwrite."),
              Ev.log ("Skipping " ++ ".gitignore" ++ " (exists). Use --force to overwrite.")],
        false⟩ : StepOut) (safeWrite w ".npmignore" npmignoreContent false)
      = ⟨fs, [Ev.log ("Skipping " ++ "rollup.config.js" ++ " (exists). Use --force to overwrite."),
              Ev.log ("Skipping " ++ "tsconfig.types.json" ++ " (exists). Use --force to overwrite."),
              Ev.log ("Skipping " ++ ".gitignore" ++ " (exists). Use --force to overwrite."),
              Ev.log ("Skipping " ++ ".npmignore" ++ " (exists). Use --force to overwrite.")], false⟩ := by
    rw [seqStep_ok _ _ rfl]
    dsimp only
    rw [safeWrite_skip w _ _ fs hn]
    rfl
  rw [s4]
  rw [seqStep_ok _ _ rfl]
  dsimp only
  rw [safeWrite_skip w _ _ fs hm]
  rfl

/-- **C8.**  Without `--force`, in a directory that already holds the
manifest, the stub source file, every template-set file and the LICENSE,
the run leaves the content of each of those generated files exactly as it
was and reports each one as skipped on the console. -/
theorem c8_no_force_skips (w : World) (opts : Opts) (raw : String) (pkg : JObj)
    (hw : ∀ p, w.writeOk p = true)
    (hread : fsRead w.fs "package.json" = some raw)
    (hparse : w.parse raw = some pkg)
    (hforce : opts.force = false)
    (hstub : fsExists w.fs "src/index.js" = true)
    (hr : fsExists w.fs "rollup.config.js" = true)
    (ht : fsExists w.fs "tsconfig.types.json" = true)
    (hg : fsExists w.fs ".gitignore" = true)
    (hn : fsExists w.fs ".npmignore" = true)
    (hm : fsExists w.fs "README.md" = true)
    (hl : fsExists w.fs "LICENSE" = true) :
    (∀ p ∈ (["src/index.js", "rollup.config.js", "tsconfig.types.json", ".gitignore",
        ".npmignore", "README.md", "LICENSE"] : List String),
      fsRead (main w opts).fs p = fsRead w.fs p) ∧
    Ev.log "Skipping src/index.js (exists)." ∈ (main w opts).events ∧
    (∀ p ∈ (["rollup.config.js", "tsconfig.types.json", ".gitignore", ".npmignore",
        "README.md"] : List String),
      Ev.log ("Skipping " ++ p ++ " (exists). Use --force to overwrite.")
        ∈ (main w opts).events) ∧
    Ev.log "Skipping LICENSE (exists)." ∈ (main w opts).events := by
  have e0 : ∀ q, fsExists w.fs q = true →
      fsExists (fsWrite (fsWrite w.fs (bakName w.now) raw) "package.json"
        (w.stringify (.obj (mergeManifest pkg)) ++ "\n")) q = true :=
    fun q hq => fsExists_write_mono _ _ _ _ (fsExists_write_mono _ _ _ _ hq)
  have hph : phase2 w opts pkg raw
      = ⟨fsWrite (fsWrite w.fs (bakName w.now) raw) "package.json"
            (w.stringify (.obj (mergeManifest pkg)) ++ "\n"),
         [Ev.fswrite (bakName w.now) raw,
          Ev.log ("Backed up package.json -> " ++ bakName w.now),
          Ev.fswrite "package.json" (w.stringify (.obj (mergeManifest pkg)) ++ "\n"),
          Ev.log "Updated package.json (merged fields).",
          Ev.log "Skipping src/index.js (exists).",
          Ev.log ("Skipping " ++ "rollup.config.js" ++ " (exists). Use --force to overwrite."),
          Ev.log ("Skipping " ++ "tsconfig.types.json" ++ " (exists). Use --force to overwrite."),
          Ev.log ("Skipping " ++ ".gitignore" ++ " (exists). Use --force to overwrite."),
          Ev.log ("Skipping " ++ ".npmignore" ++ " (exists). Use --force to overwrite."),
          Ev.log ("Skipping " ++ "README.md" ++ " (exists). Use --force to overwrite."),
          Ev.log "Skipping LICENSE (exists)."], false⟩ := by
    unfold phase2
    rw [writeStep_ok w _ _ _ _ (hw _), seqStep_ok _ _ rfl]
    dsimp only
    rw [writeStep_ok w _ _ _ _ (hw _), seqStep_ok _ _ rfl]
    dsimp only
    rw [stubStep_skip w opts _ (e0 _ hstub) hforce, seqStep_ok _ _ rfl]
    dsimp only
    rw [hforce, templatesStep_skip w _ (e0 _ hr) (e0 _ ht) (e0 _ hg) (e0 _ hn) (e0 _ hm),
      seqStep_ok _ _ rfl]
    dsimp only
    rw [licenseStep_skip w opts pkg _ (e0 _ hl) hforce]
    rfl
  rw [main_reduce w opts raw pkg hread hparse, hph]
  simp only [Bool.false_eq_true, if_false]
  refine ⟨?_, ?_, ?_, ?_⟩
  · intro p hp
    simp only [List.mem_cons, List.not_mem_nil, or_false] at hp
    rcases hp with rfl | rfl | rfl | rfl | rfl | rfl | rfl <;>
      rw [fsRead_write_ne _ _ _ _ (by decide),
        fsRead_write_ne _ _ _ _ (bakName_ne_short w.now _ (by decide))]
  · simp
  · intro p hp
    simp only [List.mem_cons, List.not_mem_nil, or_false] at hp
    rcases hp with rfl | rfl | rfl | rfl | rfl <;> simp
  · simp

/-- Witness for C8: a concrete directory with every generated file present
keeps the stub's content and reports the LICENSE skip. -/
theorem c8_no_force_skips_witness :
    fsRead (main { fs := [("package.json", "\x7b\x7d"), ("src/index.js", "old stub"),
                   ("rollup.config.js", "r"), ("tsconfig.types.json", "t"),
                   (".gitignore", "g"), (".npmignore", "n"), ("README.md", "m"),
                   ("LICENSE", "L")], now := 0, year := 2026, git := none,
                   installExit := 0, writeOk := fun _ => true, parse := fun _ => some [],
                   stringify := fun _ => "\x7b\x7d" }
          { noInstall := true, force := false, name := none, pkg := "npm" }).fs "src/index.js"
      = some "old stub" ∧
    Ev.log "Skipping LICENSE (exists)."
      ∈ (main { fs := [("package.json", "\x7b\x7d"), ("src/index.js", "old stub"),
                   ("rollup.config.js", "r"), ("tsconfig.types.json", "t"),
                   (".gitignore", "g"), (".npmignore", "n"), ("README.md", "m"),
                   ("LICENSE", "L")], now := 0, year := 2026, git := none,
                   installExit := 0, writeOk := fun _ => true, parse := fun _ => some [],
                   stringify := fun _ => "\x7b\x7d" }
          { noInstall := true, force := false, name := none, pkg := "npm" }).events := by
  have h := c8_no_force_skips
    { fs := [("package.json", "\x7b\x7d"), ("src/index.js", "old stub"),
        ("rollup.config.js", "r"), ("tsconfig.types.json", "t"),
        (".gitignore", "g"), (".npmignore", "n"), ("README.md", "m"),
        ("LICENSE", "L")], now := 0, year := 2026, git := none,
      installExit := 0, writeOk := fun _ => true, parse := fun _ => some [],
      stringify := fun _ => "\x7b\x7d" }
    { noInstall := true, force := false, name := none, pkg := "npm" }
    "\x7b\x7d" [] (fun _ => rfl) rfl rfl rfl rfl rfl rfl rfl rfl rfl rfl
  refine ⟨?_, h.2.2.2⟩
  rw [h.1 "src/index.js" (by decide)]
  rfl

end RollUp
